import Mathlib

/-!
Verification of the instance-readiness controller and helper scripts in
`packages/infra/scripts/python` of the reefguide repository.

The embedding models `connet-efs.py` (the polling state machine of
`start_instance_if_needed` and `wait_for_ssm`), the `utils.py` module
surface used by its import statement, and the `slugify_stack_name`
functions duplicated in `get-efs-target.py` and `build-capacity-env.py`.

External effects (AWS CLI calls, sleeps) are modelled as an event trace:
each `get_instance_state` call during the wait loop emits a `query` event,
each `aws ec2 start-instances` invocation emits a `startCmd` event, each
`time.sleep(10)` emits a `sleep 10` event, and each `check_ssm_managed`
call emits an `ssmCheck` event.  The environment is injected: the power
state observed by the i-th wait-phase poll is `poll i`, the SSM ping
result of the i-th reachability check is `check i`, and the outcome of
the start command is `startResult` (`none` on success, `some e` when the
subprocess raises with message `e`).
-/

namespace ReefGuide

/-- One observable external action of `connet-efs.py`. -/
inductive Event where
  | query
  | startCmd
  | sleep (duration : Nat)
  | ssmCheck
deriving DecidableEq, Repr

/-- How a controller operation ends: normal return, or `sys.exit(1)` after
`log_error(msg)`. -/
inductive Outcome where
  | success
  | fatal (msg : String)
deriving DecidableEq, Repr

/-- Number of power-state queries in a trace. -/
def countQuery : List Event → Nat
  | [] => 0
  | Event.query :: tr => countQuery tr + 1
  | _ :: tr => countQuery tr

/-- Number of start commands in a trace. -/
def countStart : List Event → Nat
  | [] => 0
  | Event.startCmd :: tr => countStart tr + 1
  | _ :: tr => countStart tr

/-- Number of inter-attempt delays (sleep events) in a trace. -/
def countDelay : List Event → Nat
  | [] => 0
  | Event.sleep _ :: tr => countDelay tr + 1
  | _ :: tr => countDelay tr

/-- Number of SSM reachability checks in a trace. -/
def countSsm : List Event → Nat
  | [] => 0
  | Event.ssmCheck :: tr => countSsm tr + 1
  | _ :: tr => countSsm tr

/-- Timeout message of the power-on wait phase (`connet-efs.py` line 102). -/
def instanceTimeoutMsg : String := "Instance failed to start within timeout"

/-- Timeout message of the SSM reachability phase (`connet-efs.py` line 122). -/
def ssmTimeoutMsg : String := "SSM connectivity could not be established within timeout"

/-- The wait loop of `start_instance_if_needed` (`connet-efs.py` lines 93-103):
`for attempt in range(30)`, each iteration queries the power state, returns on
`running`, otherwise sleeps 10 seconds; after the loop it exits fatally with
the timeout message.  `fuel` is the number of remaining iterations and `i`
the index of the next poll. -/
def waitLoop (poll : Nat → String) : Nat → Nat → Outcome × List Event
  | 0, _ => (Outcome.fatal instanceTimeoutMsg, [])
  | fuel + 1, i =>
    if poll i = "running" then
      (Outcome.success, [Event.query])
    else
      let r := waitLoop poll fuel (i + 1)
      (r.1, Event.query :: Event.sleep 10 :: r.2)

/-- Function `start_instance_if_needed` (`connet-efs.py` lines 67-107), the
`EnsureRunning` operation.  `initial` is the state returned by the initial
`get_instance_state` call (line 69; that call is not part of the wait-phase
trace, the trace records it as the leading `query` event).  `startResult`
is the outcome of the `aws ec2 start-instances` subprocess: `none` when it
succeeds, `some e` when it raises `CalledProcessError` `e` (line 83, in
which case the script logs `Failed to start instance: ` followed by the
error text and exits). -/
def start_instance_if_needed (initial : String) (startResult : Option String)
    (poll : Nat → String) : Outcome × List Event :=
  if initial = "running" then
    (Outcome.success, [Event.query])
  else if initial = "stopped" then
    match startResult with
    | some e => (Outcome.fatal ("Failed to start instance: " ++ e),
        [Event.query, Event.startCmd])
    | none =>
      let r := waitLoop poll 30 0
      (r.1, Event.query :: Event.startCmd :: r.2)
  else if initial = "pending" ∨ initial = "stopping" then
    let r := waitLoop poll 30 0
    (r.1, Event.query :: r.2)
  else
    (Outcome.fatal ("Instance is in unexpected state: " ++ initial), [Event.query])

/-- The loop of `wait_for_ssm` (`connet-efs.py` lines 110-123): up to 30
attempts, each calling `check_ssm_managed`, returning on `True`, otherwise
sleeping 10 seconds; fatal timeout when the budget is exhausted. -/
def ssmLoop (check : Nat → Bool) : Nat → Nat → Outcome × List Event
  | 0, _ => (Outcome.fatal ssmTimeoutMsg, [])
  | fuel + 1, i =>
    if check i then
      (Outcome.success, [Event.ssmCheck])
    else
      let r := ssmLoop check fuel (i + 1)
      (r.1, Event.ssmCheck :: Event.sleep 10 :: r.2)

/-- Function `wait_for_ssm` (`connet-efs.py` lines 110-123), the
`EnsureManagementReachable` operation; `check i` is the boolean result of
the i-th `check_ssm_managed` call. -/
def wait_for_ssm (check : Nat → Bool) : Outcome × List Event :=
  ssmLoop check 30 0

/-- The module-level names bound by `utils.py` (its imports `sys` and
`datetime`, the `Colors` class, and the four logging functions at lines
15-33). -/
def utilsDefinedNames : List String :=
  ["sys", "datetime", "Colors", "log", "log_info", "log_warn", "log_error"]

/-- The names `connet-efs.py` line 13 requests:
`from utils import log_info, log_error, log_blue`. -/
def connetUtilsImports : List String := ["log_info", "log_error", "log_blue"]

/-- Python `from m import a, b, ...` semantics: the import statement succeeds
iff every requested name is bound in module `m`; otherwise it raises
`ImportError` at module-load time. -/
def importResolves (defined requested : List String) : Bool :=
  requested.all (fun n => defined.contains n)

/-- Running `connet-efs.py`: Python executes the import statements of a module
before any function is defined or called, so the body (`ops`, standing for
`main` and every controller operation it invokes) runs only if the import
of `utils` resolves; `none` models the `ImportError` aborting the script. -/
def runConnetScript {α : Type} (ops : Unit → α) : Option α :=
  if importResolves utilsDefinedNames connetUtilsImports then some (ops ()) else none

/-- The character class kept by the regex substitution shared by both
slugify implementations, which deletes every character not in the ranges
a-z and 0-9. -/
def slugChar (c : Char) : Bool :=
  ('a' ≤ c && c ≤ 'z') || ('0' ≤ c && c ≤ '9')

/-- Function `slugify_stack_name` from `get-efs-target.py` lines 38-54: lowercase the
input (`str.lower`, modelled per character by `Char.toLower`; both fix every
character the subsequent filter can keep), drop every character outside
`[a-z0-9]`, prefix `n` when the result starts with a digit, and fall back to
`"empty"` when the result is empty. -/
def slugify_stack_name (text : String) : String :=
  let s := (text.toList.map Char.toLower).filter slugChar
  let s2 := match s with
    | [] => ([] : List Char)
    | c :: rest => if c.isDigit then 'n' :: c :: rest else c :: rest
  (if s2.isEmpty then "empty".toList else s2).asString

/-- Function `slugify_stack_name` from `build-capacity-env.py` lines 53-66; the body
is textually the same transformation as the `get-efs-target.py` copy. -/
def slugify_stack_name_capacity (text : String) : String :=
  let s := (text.toList.map Char.toLower).filter slugChar
  let s2 := match s with
    | [] => ([] : List Char)
    | c :: rest => if c.isDigit then 'n' :: c :: rest else c :: rest
  (if s2.isEmpty then "empty".toList else s2).asString

/-- Poll schedule used to instantiate theorems: the instance reports
`pending` on the first two wait-phase polls and `running` from the third. -/
def demoPoll (j : Nat) : String := if 2 ≤ j then "running" else "pending"

/-- Poll schedule of an instance that never reaches `running`. -/
def demoStuckPoll (_ : Nat) : String := "pending"

/-- Reachability schedule: offline on the first check, online afterwards. -/
def demoCheck (j : Nat) : Bool := decide (1 ≤ j)

/-- If the poll schedule of the wait loop first reports `running` on attempt `k`
(with `k` within the remaining budget), the loop succeeds with exactly `k`
queries and `k - 1` delays in its trace. -/
theorem waitLoop_success (poll : Nat → String) :
    ∀ fuel i k, 1 ≤ k → k ≤ fuel →
      (∀ j, j < k - 1 → poll (i + j) ≠ "running") →
      poll (i + (k - 1)) = "running" →
      (waitLoop poll fuel i).1 = Outcome.success ∧
      countQuery (waitLoop poll fuel i).2 = k ∧
      countDelay (waitLoop poll fuel i).2 = k - 1 := by
  intro fuel
  induction fuel with
  | zero => intro i k hk1 hk0 _ _; omega
  | succ fuel ih =>
    intro i k hk1 hkf hbefore hrun
    match k, hk1 with
    | 1, _ =>
      have h0 : poll i = "running" := by simpa using hrun
      simp [waitLoop, h0, countQuery, countDelay]
    | m + 2, _ =>
      have h0 : poll i ≠ "running" := by
        have := hbefore 0 (by omega)
        simpa using this
      have hrec := ih (i + 1) (m + 1) (by omega) (by omega)
        (fun j hj => by
          have := hbefore (j + 1) (by omega)
          have harg : i + (j + 1) = i + 1 + j := by omega
          rwa [harg] at this)
        (by
          have harg : i + (m + 2 - 1) = i + 1 + (m + 1 - 1) := by omega
          rwa [harg] at hrun)
      simp only [waitLoop, h0, if_neg, ite_false]
      refine ⟨hrec.1, ?_, ?_⟩
      · simp [countQuery, hrec.2.1]
      · simp [countDelay, hrec.2.2]

/-- If the poll schedule never reports `running` within the remaining budget,
the wait loop fails with the power-on timeout message after exactly `fuel`
queries. -/
theorem waitLoop_timeout (poll : Nat → String) :
    ∀ fuel i, (∀ j, j < fuel → poll (i + j) ≠ "running") →
      (waitLoop poll fuel i).1 = Outcome.fatal instanceTimeoutMsg ∧
      countQuery (waitLoop poll fuel i).2 = fuel := by
  intro fuel
  induction fuel with
  | zero => intro i _; simp [waitLoop, countQuery]
  | succ fuel ih =>
    intro i hnever
    have h0 : poll i ≠ "running" := by
      have := hnever 0 (by omega)
      simpa using this
    have hrec := ih (i + 1) (fun j hj => by
      have := hnever (j + 1) (by omega)
      have harg : i + (j + 1) = i + 1 + j := by omega
      rwa [harg] at this)
    simp only [waitLoop, h0, if_neg, ite_false]
    exact ⟨hrec.1, by simp [countQuery, hrec.2]⟩

/-- The wait loop issues no start command. -/
theorem waitLoop_no_start (poll : Nat → String) :
    ∀ fuel i, countStart (waitLoop poll fuel i).2 = 0 := by
  intro fuel
  induction fuel with
  | zero => intro i; simp [waitLoop, countStart]
  | succ fuel ih =>
    intro i
    by_cases h0 : poll i = "running"
    · simp [waitLoop, h0, countStart]
    · simp only [waitLoop, h0, if_neg, ite_false]
      simp [countStart, ih (i + 1)]

/-- If the reachability flag first reads `true` on attempt `k` within the
remaining budget, the SSM loop succeeds with exactly `k` checks and `k - 1`
delays. -/
theorem ssmLoop_success (check : Nat → Bool) :
    ∀ fuel i k, 1 ≤ k → k ≤ fuel →
      (∀ j, j < k - 1 → check (i + j) = false) →
      check (i + (k - 1)) = true →
      (ssmLoop check fuel i).1 = Outcome.success ∧
      countSsm (ssmLoop check fuel i).2 = k ∧
      countDelay (ssmLoop check fuel i).2 = k - 1 := by
  intro fuel
  induction fuel with
  | zero => intro i k hk1 hk0 _ _; omega
  | succ fuel ih =>
    intro i k hk1 hkf hbefore hrun
    match k, hk1 with
    | 1, _ =>
      have h0 : check i = true := by simpa using hrun
      simp [ssmLoop, h0, countSsm, countDelay]
    | m + 2, _ =>
      have h0 : check i = false := by
        have := hbefore 0 (by omega)
        simpa using this
      have hrec := ih (i + 1) (m + 1) (by omega) (by omega)
        (fun j hj => by
          have := hbefore (j + 1) (by omega)
          have harg : i + (j + 1) = i + 1 + j := by omega
          rwa [harg] at this)
        (by
          have harg : i + (m + 2 - 1) = i + 1 + (m + 1 - 1) := by omega
          rwa [harg] at hrun)
      simp only [ssmLoop, h0, Bool.false_eq_true, if_neg, ite_false]
      refine ⟨hrec.1, ?_, ?_⟩
      · simp [countSsm, hrec.2.1]
      · simp [countDelay, hrec.2.2]

/-- If the reachability flag never reads `true` within the remaining budget,
the SSM loop fails with the SSM timeout message after exactly `fuel` checks. -/
theorem ssmLoop_timeout (check : Nat → Bool) :
    ∀ fuel i, (∀ j, j < fuel → check (i + j) = false) →
      (ssmLoop check fuel i).1 = Outcome.fatal ssmTimeoutMsg ∧
      countSsm (ssmLoop check fuel i).2 = fuel := by
  intro fuel
  induction fuel with
  | zero => intro i _; simp [ssmLoop, countSsm]
  | succ fuel ih =>
    intro i hnever
    have h0 : check i = false := by
      have := hnever 0 (by omega)
      simpa using this
    have hrec := ih (i + 1) (fun j hj => by
      have := hnever (j + 1) (by omega)
      have harg : i + (j + 1) = i + 1 + j := by omega
      rwa [harg] at this)
    simp only [ssmLoop, h0, Bool.false_eq_true, if_neg, ite_false]
    exact ⟨hrec.1, by simp [countSsm, hrec.2]⟩

/-- Every sleep event the SSM loop emits has duration 10: the
`time.sleep(10)` call of the code. -/
theorem ssmLoop_delay_ten (check : Nat → Bool) :
    ∀ fuel i d, Event.sleep d ∈ (ssmLoop check fuel i).2 → d = 10 := by
  intro fuel
  induction fuel with
  | zero => intro i d h; simp [ssmLoop] at h
  | succ fuel ih =>
    intro i d h
    by_cases h0 : check i
    · simp [ssmLoop, h0] at h
    · simp only [ssmLoop, h0, Bool.false_eq_true, if_neg, ite_false] at h
      simp only [List.mem_cons] at h
      rcases h with h | h | h
      · exact absurd h (by simp)
      · injection h
      · exact ih (i + 1) d h

/-- C5: for an instance whose power state is initially `running`,
`EnsureRunning` (`start_instance_if_needed`) returns success immediately,
with no start command and no power-state query beyond the initial one. -/
theorem ensureRunning_running_noop (startResult : Option String) (poll : Nat → String) :
    start_instance_if_needed "running" startResult poll = (Outcome.success, [Event.query]) ∧
    countStart (start_instance_if_needed "running" startResult poll).2 = 0 ∧
    countQuery (start_instance_if_needed "running" startResult poll).2 = 1 := by
  refine ⟨rfl, ?_, ?_⟩ <;> simp [start_instance_if_needed, countStart, countQuery]

/-- C8: for an instance whose initial power state is outside
`running/stopped/pending/stopping`, `EnsureRunning` fails fatally at once:
no start command, no retry, and no power-state query beyond the first. -/
theorem ensureRunning_unexpected_state (initial : String) (startResult : Option String)
    (poll : Nat → String)
    (h : initial ∉ (["running", "stopped", "pending", "stopping"] : List String)) :
    start_instance_if_needed initial startResult poll =
      (Outcome.fatal ("Instance is in unexpected state: " ++ initial), [Event.query]) ∧
    countStart (start_instance_if_needed initial startResult poll).2 = 0 ∧
    countQuery (start_instance_if_needed initial startResult poll).2 = 1 := by
  simp only [List.mem_cons, List.not_mem_nil, or_false, not_or] at h
  obtain ⟨h1, h2, h3, h4⟩ := h
  refine ⟨?_, ?_, ?_⟩ <;>
    simp [start_instance_if_needed, h1, h2, h3, h4, countStart, countQuery]

/-- Witness for C8 at the example state of the spec, `terminated`. -/
theorem ensureRunning_unexpected_state_witness :
    start_instance_if_needed "terminated" none demoStuckPoll =
      (Outcome.fatal ("Instance is in unexpected state: " ++ "terminated"), [Event.query]) ∧
    countStart (start_instance_if_needed "terminated" none demoStuckPoll).2 = 0 ∧
    countQuery (start_instance_if_needed "terminated" none demoStuckPoll).2 = 1 :=
  ensureRunning_unexpected_state "terminated" none demoStuckPoll (by decide)

/-- C9: for an instance initially `stopped` whose start command raises, the
operation fails fatally reporting the error; the start command is issued
once and not retried, and the wait phase is never entered (no wait-phase
query, no delay). -/
theorem ensureRunning_start_command_failure (e : String) (poll : Nat → String) :
    start_instance_if_needed "stopped" (some e) poll =
      (Outcome.fatal ("Failed to start instance: " ++ e), [Event.query, Event.startCmd]) ∧
    countStart (start_instance_if_needed "stopped" (some e) poll).2 = 1 ∧
    countQuery (start_instance_if_needed "stopped" (some e) poll).2 = 1 ∧
    countDelay (start_instance_if_needed "stopped" (some e) poll).2 = 0 := by
  refine ⟨rfl, ?_, ?_, ?_⟩ <;>
    simp [start_instance_if_needed, countStart, countQuery, countDelay]

/-- C4: for an instance initially `stopped`, `EnsureRunning` issues exactly
one start command, and it appears in the trace right after the initial
classification query, before every wait-phase poll. -/
theorem ensureRunning_stopped_one_start (startResult : Option String) (poll : Nat → String) :
    countStart (start_instance_if_needed "stopped" startResult poll).2 = 1 ∧
    ∃ tr, (start_instance_if_needed "stopped" startResult poll).2 =
        Event.query :: Event.startCmd :: tr ∧ countStart tr = 0 := by
  cases startResult with
  | some e =>
    exact ⟨by simp [start_instance_if_needed, countStart], [], rfl, rfl⟩
  | none =>
    refine ⟨?_, (waitLoop poll 30 0).2, ?_, waitLoop_no_start poll 30 0⟩
    · simp [start_instance_if_needed, countStart, waitLoop_no_start poll 30 0]
    · simp [start_instance_if_needed]

/-- C6: for an instance initially `pending` or `stopping`, `EnsureRunning`
issues zero start commands and proceeds directly to the wait phase: its
result is the outcome of the wait loop, its trace the initial query followed
by the trace of the wait loop. -/
theorem ensureRunning_transitional_no_start (initial : String) (startResult : Option String)
    (poll : Nat → String) (h : initial = "pending" ∨ initial = "stopping") :
    start_instance_if_needed initial startResult poll =
      ((waitLoop poll 30 0).1, Event.query :: (waitLoop poll 30 0).2) ∧
    countStart (start_instance_if_needed initial startResult poll).2 = 0 := by
  have h1 : initial ≠ "running" := by rcases h with h | h <;> subst h <;> decide
  have h2 : initial ≠ "stopped" := by rcases h with h | h <;> subst h <;> decide
  constructor
  · simp [start_instance_if_needed, h1, h2, h]
  · simp [start_instance_if_needed, h1, h2, h, countStart, waitLoop_no_start poll 30 0]

/-- Witness for C6: a `pending` instance leads straight into the wait loop
with no start command. -/
theorem ensureRunning_transitional_no_start_witness :
    start_instance_if_needed "pending" none demoPoll =
      ((waitLoop demoPoll 30 0).1, Event.query :: (waitLoop demoPoll 30 0).2) ∧
    countStart (start_instance_if_needed "pending" none demoPoll).2 = 0 :=
  ensureRunning_transitional_no_start "pending" none demoPoll (Or.inl rfl)

/-- C1: when the wait phase is entered (initial state `stopped` with a
successful start, or `pending`/`stopping`) and the power state first reads
`running` on wait-phase poll attempt `k` (1 ≤ k ≤ 30), `EnsureRunning`
returns success, and the wait phase issues exactly `k` power-state queries
and exactly `k - 1` inter-attempt delays. -/
theorem ensureRunning_success_after_k_polls (initial : String) (startResult : Option String)
    (poll : Nat → String) (k : Nat)
    (hinit : initial = "stopped" ∨ initial = "pending" ∨ initial = "stopping")
    (hstart : initial = "stopped" → startResult = none)
    (hk1 : 1 ≤ k) (hk30 : k ≤ 30)
    (hbefore : ∀ j, j < k - 1 → poll j ≠ "running")
    (hrun : poll (k - 1) = "running") :
    (start_instance_if_needed initial startResult poll).1 = Outcome.success ∧
    countQuery (waitLoop poll 30 0).2 = k ∧
    countDelay (waitLoop poll 30 0).2 = k - 1 := by
  have hw := waitLoop_success poll 30 0 k hk1 hk30
    (fun j hj => by simpa using hbefore j hj) (by simpa using hrun)
  refine ⟨?_, hw.2.1, hw.2.2⟩
  rcases hinit with h | h | h
  · subst h
    have hs := hstart rfl
    subst hs
    simpa [start_instance_if_needed] using hw.1
  · subst h
    simpa [start_instance_if_needed] using hw.1
  · subst h
    simpa [start_instance_if_needed] using hw.1

/-- Witness for C1: `pending` instance, `running` first observed on the
third wait-phase poll: success with 3 queries and 2 delays. -/
theorem ensureRunning_success_after_k_polls_witness :
    (start_instance_if_needed "pending" none demoPoll).1 = Outcome.success ∧
    countQuery (waitLoop demoPoll 30 0).2 = 3 ∧
    countDelay (waitLoop demoPoll 30 0).2 = 2 :=
  ensureRunning_success_after_k_polls "pending" none demoPoll 3
    (Or.inr (Or.inl rfl)) (fun h => absurd h (by decide)) (by decide) (by decide)
    (fun j hj => by
      have hj2 : j = 0 ∨ j = 1 := by omega
      rcases hj2 with h | h <;> subst h <;> decide)
    (by decide)

/-- C2: when the wait phase is entered and the power state is never observed
as `running` in its 30 attempts, `EnsureRunning` fails fatally with the
power-on timeout message, the wait phase issues exactly 30 power-state
queries, and that message differs from the timeout message of the SSM phase. -/
theorem ensureRunning_timeout_after_30 (initial : String) (startResult : Option String)
    (poll : Nat → String)
    (hinit : initial = "stopped" ∨ initial = "pending" ∨ initial = "stopping")
    (hstart : initial = "stopped" → startResult = none)
    (hnever : ∀ j, j < 30 → poll j ≠ "running") :
    (start_instance_if_needed initial startResult poll).1 =
      Outcome.fatal instanceTimeoutMsg ∧
    countQuery (waitLoop poll 30 0).2 = 30 ∧
    instanceTimeoutMsg ≠ ssmTimeoutMsg := by
  have hw := waitLoop_timeout poll 30 0 (fun j hj => by simpa using hnever j hj)
  refine ⟨?_, hw.2, by decide⟩
  rcases hinit with h | h | h
  · subst h
    have hs := hstart rfl
    subst hs
    simpa [start_instance_if_needed] using hw.1
  · subst h
    simpa [start_instance_if_needed] using hw.1
  · subst h
    simpa [start_instance_if_needed] using hw.1

/-- Witness for C2: a `stopping` instance stuck at `pending` for all 30
polls times out with 30 queries. -/
theorem ensureRunning_timeout_after_30_witness :
    (start_instance_if_needed "stopping" none demoStuckPoll).1 =
      Outcome.fatal instanceTimeoutMsg ∧
    countQuery (waitLoop demoStuckPoll 30 0).2 = 30 ∧
    instanceTimeoutMsg ≠ ssmTimeoutMsg :=
  ensureRunning_timeout_after_30 "stopping" none demoStuckPoll
    (Or.inr (Or.inr rfl)) (fun h => absurd h (by decide))
    (fun j hj => by unfold demoStuckPoll; decide)

/-- C7: `EnsureManagementReachable` (`wait_for_ssm`) obeys the same
poll/timeout contract as the power-on wait phase: if the reachability flag
first reads true on attempt `k` (1 ≤ k ≤ 30) it succeeds after exactly `k`
checks and `k - 1` delays, each delay of 10 time units; if the flag never
reads true in 30 attempts it fails fatally with the SSM timeout message
after exactly 30 checks. -/
theorem wait_for_ssm_contract (check : Nat → Bool) :
    (∀ k, 1 ≤ k → k ≤ 30 → (∀ j, j < k - 1 → check j = false) → check (k - 1) = true →
      (wait_for_ssm check).1 = Outcome.success ∧
      countSsm (wait_for_ssm check).2 = k ∧
      countDelay (wait_for_ssm check).2 = k - 1 ∧
      (∀ d, Event.sleep d ∈ (wait_for_ssm check).2 → d = 10)) ∧
    ((∀ j, j < 30 → check j = false) →
      (wait_for_ssm check).1 = Outcome.fatal ssmTimeoutMsg ∧
      countSsm (wait_for_ssm check).2 = 30) := by
  constructor
  · intro k hk1 hk30 hbefore hk
    have hs := ssmLoop_success check 30 0 k hk1 hk30
      (fun j hj => by simpa using hbefore j hj) (by simpa using hk)
    exact ⟨hs.1, hs.2.1, hs.2.2, fun d hd => ssmLoop_delay_ten check 30 0 d hd⟩
  · intro hnever
    exact ssmLoop_timeout check 30 0 (fun j hj => by simpa using hnever j hj)

/-- Witness for C7: reachability first true on the second check: success
after 2 checks and 1 delay. -/
theorem wait_for_ssm_contract_witness :
    (wait_for_ssm demoCheck).1 = Outcome.success ∧
    countSsm (wait_for_ssm demoCheck).2 = 2 ∧
    countDelay (wait_for_ssm demoCheck).2 = 1 := by
  have h := (wait_for_ssm_contract demoCheck).1 2 (by decide) (by decide)
    (fun j hj => by
      have hj0 : j = 0 := by omega
      subst hj0
      decide)
    (by decide)
  exact ⟨h.1, h.2.1, h.2.2.1⟩

/-- C3: `connet-efs.py` requests `log_blue` from `utils`, but `utils.py`
binds no such name, so the module-level import raises before any controller
operation can run: the body of the script is never reached. -/
theorem connet_efs_import_log_blue_fails :
    utilsDefinedNames.contains "log_blue" = false ∧
    connetUtilsImports.contains "log_blue" = true ∧
    importResolves utilsDefinedNames connetUtilsImports = false ∧
    ∀ (α : Type) (ops : Unit → α), runConnetScript ops = none := by
  refine ⟨by decide, by decide, by decide, ?_⟩
  intro α ops
  have h : importResolves utilsDefinedNames connetUtilsImports = false := by decide
  simp [runConnetScript, h]

/-- Characters kept by the slug filter are fixed by `Char.toLower`: they are
lowercase letters or digits, outside the `A`-`Z` range the function maps. -/
theorem toLower_fix_of_slugChar (c : Char) (h : slugChar c = true) :
    c.toLower = c := by
  simp [slugChar, Char.le_def, UInt32.le_def, BitVec.le_def] at h
  unfold Char.toLower
  have hn : ¬(c.toNat ≥ 65 ∧ c.toNat ≤ 90) := by
    simp [Char.toNat, UInt32.toNat]
    omega
  simp [hn]

/-- Mapping `Char.toLower` over a list of slug characters is the identity. -/
theorem map_toLower_fix : ∀ l : List Char,
    (∀ c ∈ l, slugChar c = true) → l.map Char.toLower = l
  | [], _ => rfl
  | c :: t, h => by
    rw [List.map_cons, toLower_fix_of_slugChar c (h c (List.mem_cons_self c t)),
      map_toLower_fix t (fun x hx => h x (List.mem_cons_of_mem c hx))]

/-- Filtering a list of slug characters by `slugChar` is the identity. -/
theorem filter_slugChar_fix : ∀ l : List Char,
    (∀ c ∈ l, slugChar c = true) → l.filter slugChar = l
  | [], _ => rfl
  | c :: t, h => by
    rw [List.filter_cons_of_pos (h c (List.mem_cons_self c t)),
      filter_slugChar_fix t (fun x hx => h x (List.mem_cons_of_mem c hx))]

/-- A nonempty string of slug characters whose first character is not a
digit is a fixed point of `slugify_stack_name`. -/
theorem slugify_fix (c : Char) (rest : List Char)
    (hall : ∀ x ∈ c :: rest, slugChar x = true) (hhead : c.isDigit = false) :
    slugify_stack_name (c :: rest).asString = (c :: rest).asString := by
  have htl : ((c :: rest).asString).data = c :: rest := rfl
  have hmap : (c :: rest).map Char.toLower = c :: rest := map_toLower_fix _ hall
  have hfil : (c :: rest).filter slugChar = c :: rest := filter_slugChar_fix _ hall
  simp [slugify_stack_name, String.toList, htl, hmap, hfil, hhead]

/-- C10: the `slugify_stack_name` of `get-efs-target.py` and the
`slugify_stack_name` of `build-capacity-env.py` agree on every input, and
the function is idempotent: applied to its own output it returns that
output unchanged. -/
theorem slugify_copies_agree_and_idempotent :
    (∀ t : String, slugify_stack_name t = slugify_stack_name_capacity t) ∧
    (∀ t : String, slugify_stack_name (slugify_stack_name t) = slugify_stack_name t) := by
  refine ⟨fun _ => rfl, fun t => ?_⟩
  have hbase : ∀ c ∈ (t.data.map Char.toLower).filter slugChar, slugChar c = true :=
    fun c hc => (List.mem_filter.mp hc).2
  rcases hb : (t.data.map Char.toLower).filter slugChar with _ | ⟨c, rest⟩
  · have h1 : slugify_stack_name t = "empty" := by
      simp only [slugify_stack_name, String.toList, hb]
      rfl
    rw [h1]
    decide
  · have hc : slugChar c = true := hbase c (by rw [hb]; exact List.mem_cons_self c rest)
    have hrest : ∀ x ∈ rest, slugChar x = true :=
      fun x hx => hbase x (by rw [hb]; exact List.mem_cons_of_mem c hx)
    have hallc : ∀ x ∈ c :: rest, slugChar x = true := by
      intro x hx
      rcases List.mem_cons.mp hx with h | h
      · exact h ▸ hc
      · exact hrest x h
    by_cases hd : c.isDigit
    · have h1 : slugify_stack_name t = ('n' :: c :: rest).asString := by
        simp [slugify_stack_name, String.toList, hb, hd]
      rw [h1]
      refine slugify_fix 'n' (c :: rest) ?_ (by decide)
      intro x hx
      rcases List.mem_cons.mp hx with h | h
      · subst h; decide
      · exact hallc x h
    · have hd2 : c.isDigit = false := by
        exact Bool.not_eq_true _ ▸ eq_false_of_ne_true hd
      have h1 : slugify_stack_name t = (c :: rest).asString := by
        simp [slugify_stack_name, String.toList, hb, hd2]
      rw [h1]
      exact slugify_fix c rest hallc hd2

end ReefGuide
